import Mathlib

/-!
Shallow embedding of the `redisqueue` package: the queue disciplines of
`rqueues.py` (FifoQueue, LifoQueue, PriorityQueue over redis lists and
sorted sets), the fingerprint dedup filter of `dupefilter.py`
(RFPDupeFilter), and the scheduler variants of `scheduler.py`
(Scheduler, PipeScheduler, DupeFilterScheduler).

The redis server state backing a single queue is modelled directly:
a redis list is a `List Ser` (left end = head), a sorted set is a list of
(score, member) pairs kept sorted by (score, member), and the dedup set
is a `List Nat` of fingerprints with no duplicates by construction.
Stateful methods become functions from state to (result, new state).
-/

namespace Redisqueue

/-- A task record handled by the library. `val` stands for the payload
identity (what distinguishes one task from another); `priority` is the
numeric priority attribute read by `PriorityQueue.push`; `truthy` records
the Python truthiness of the deserialized task value (`bool(obj)`). -/
structure Task where
  val : Nat
  priority : Int
  truthy : Bool
deriving DecidableEq, Repr

/-- The serialized form of a task, `serializer.dumps(obj)`. The default
serializer is pickle (`picklecompat`), which is injective, so the
serialized form is modelled as a wrapper around the task. -/
structure Ser where
  obj : Task
deriving DecidableEq, Repr

/-- `Base._serialize`: `self.serializer.dumps(obj)`. -/
def serialize (t : Task) : Ser := ⟨t⟩

/-- `Base._unserialize`: `self.serializer.loads(serialized_obj)`. -/
def unserialize (s : Ser) : Task := s.obj

/-- Python truthiness of serialized bytes. Pickle output is never an empty
byte string, so serialized data is always truthy. -/
def Ser.pyTruthy (_ : Ser) : Bool := true

/-- Python truthiness of a deserialized task value. -/
def Task.pyTruthy (t : Task) : Bool := t.truthy

theorem unserialize_serialize (t : Task) : unserialize (serialize t) = t := rfl

theorem unserialize_injective : Function.Injective unserialize := by
  intro a b h
  cases a; cases b; simpa [unserialize] using h

namespace FifoQueue

/-- `FifoQueue.push`: `self.server.lpush(self.key, self._serialize(obj))` —
insert the serialized task at the left end of the redis list. -/
def push (q : List Ser) (t : Task) : List Ser := serialize t :: q

/-- `FifoQueue.pop`: with `timeout > 0` it issues `brpop(key, timeout)`,
otherwise `rpop(key)`; both remove from the right end. On a queue accessed
by this code alone, `brpop` returns the rightmost element when the list is
non-empty and `None` after the timeout when it is empty, i.e. the same
value `rpop` returns, so both branches are modelled by removing the last
element. The body then runs `if data: return self._unserialize(data)`,
where `data` are the serialized bytes. -/
def pop (q : List Ser) (timeout : Int) : Option Task × List Ser :=
  let data := if timeout > 0 then q.getLast? else q.getLast?
  match data with
  | none => (none, q)
  | some d => if d.pyTruthy then (some (unserialize d), q.dropLast) else (none, q.dropLast)

/-- Pushing a list of tasks in order, `for t in ts: q.push(t)`. -/
def pushAll (q : List Ser) (ts : List Task) : List Ser := ts.foldl push q

/-- The sequence of tasks returned by repeated `pop` calls until the queue
is empty (see `popAll_eq_pop_step`). -/
def popAll (q : List Ser) : List Task := q.reverse.map unserialize

end FifoQueue

theorem FifoQueue.pop_nil (timeout : Int) :
    FifoQueue.pop [] timeout = (none, []) := by
  simp [FifoQueue.pop]

theorem FifoQueue.pop_concat (q : List Ser) (d : Ser) (timeout : Int) :
    FifoQueue.pop (q ++ [d]) timeout = (some (unserialize d), q) := by
  simp [FifoQueue.pop, Ser.pyTruthy]

/-- `popAll` coincides with repeated calls of `pop`: the next popped
element followed by `popAll` of the remaining queue. -/
theorem FifoQueue.popAll_eq_pop_step (q : List Ser) :
    FifoQueue.popAll q =
      (match FifoQueue.pop q 0 with
       | (none, _) => []
       | (some t, q2) => t :: FifoQueue.popAll q2) := by
  rcases List.eq_nil_or_concat q with rfl | ⟨q2, d, rfl⟩
  · simp [FifoQueue.popAll, FifoQueue.pop_nil]
  · simp [FifoQueue.pop_concat, FifoQueue.popAll]

theorem FifoQueue.pushAll_eq (q : List Ser) (ts : List Task) :
    FifoQueue.pushAll q ts = (ts.map serialize).reverse ++ q := by
  induction ts generalizing q with
  | nil => simp [FifoQueue.pushAll]
  | cons t ts ih =>
      simp only [FifoQueue.pushAll, List.foldl_cons] at *
      rw [ih (FifoQueue.push q t)]
      simp [FifoQueue.push]

/-- C1: tasks come back from a FIFO queue in push order.
Pushing a sequence `ts` onto a fresh FIFO queue and then popping
repeatedly returns exactly `ts` in order, and `pop` with timeout 0 on an
empty queue returns absent and leaves the queue empty. -/
theorem fifo_push_pop_order (ts : List Task) :
    FifoQueue.popAll (FifoQueue.pushAll [] ts) = ts ∧
      FifoQueue.pop ([] : List Ser) 0 = (none, []) := by
  constructor
  · rw [FifoQueue.pushAll_eq]
    simp [FifoQueue.popAll, Function.comp_def, unserialize_serialize]
  · exact FifoQueue.pop_nil 0

/-- Auxiliary numeric view of a Bool, used to express the lexicographic
member order of the sorted set arithmetically. -/
def boolNat (b : Bool) : Nat := if b then 1 else 0

/-- One entry of a redis sorted set: a (score, member) pair. -/
abbrev Zentry := Int × Ser

/-- A redis sorted set, kept as its list of entries in ascending
(score, member) order, which is the order `ZRANGE` enumerates. -/
abbrev Zset := List Zentry

/-- The total (score, member) order of a redis sorted set: ascending
score, ties broken by the member bytes. The member byte order is modelled
as the lexicographic order on the (injectively) serialized task fields. -/
def zle (a b : Zentry) : Prop :=
  a.1 < b.1 ∨ (a.1 = b.1 ∧
    (a.2.obj.val < b.2.obj.val ∨ (a.2.obj.val = b.2.obj.val ∧
      (a.2.obj.priority < b.2.obj.priority ∨ (a.2.obj.priority = b.2.obj.priority ∧
        boolNat a.2.obj.truthy ≤ boolNat b.2.obj.truthy)))))

instance : DecidableRel zle := fun a b => by unfold zle; infer_instance

instance : IsTotal Zentry zle := ⟨by intro a b; unfold zle; omega⟩

instance : IsTrans Zentry zle := ⟨by intro a b c hab hbc; unfold zle at *; omega⟩

theorem zle_scores {a b : Zentry} (h : zle a b) : a.1 ≤ b.1 := by
  unfold zle at h; omega

/-- `ZADD key score data`: insert the member with the given score; if the
member is already present its score is updated (a sorted set holds each
member at most once). Modelled as removing any entry with that member and
inserting the new entry at its sorted position. -/
def zadd (z : Zset) (score : Int) (member : Ser) : Zset :=
  List.orderedInsert zle (score, member) (z.filter (fun p => p.2 ≠ member))

namespace PriorityQueue

/-- `PriorityQueue.push`: `score = -obj.priority` followed by
`execute_command('ZADD', self.key, score, data)` with the serialized task
as member. -/
def push (z : Zset) (t : Task) : Zset := zadd z (-(t.priority)) (serialize t)

/-- `PriorityQueue.pop`: inside a MULTI/EXEC transaction it runs
`zrange(key, 0, 0)` and `zremrangebyrank(key, 0, 0)` — read and remove the
minimum-(score, member) entry — then `if results: return
self._unserialize(results[0])`. The `timeout` argument is not used by the
body at all. -/
def pop (z : Zset) (timeout : Int) : Option Task × Zset :=
  match z with
  | [] => (none, [])
  | p :: rest => (some (unserialize p.2), rest)

/-- Pushing a list of tasks in order. -/
def pushAll (z : Zset) (ts : List Task) : Zset := ts.foldl push z

/-- The sequence of tasks returned by repeated `pop` calls until the
sorted set is empty (see `popAll_eq_pop_step`). -/
def popAll (z : Zset) : List Task := z.map (fun p => unserialize p.2)

end PriorityQueue

/-- `popAll` coincides with repeated calls of `pop`. -/
theorem PriorityQueue.popAll_matches_pop (z : Zset) :
    PriorityQueue.popAll z =
      (match PriorityQueue.pop z 0 with
       | (none, _) => []
       | (some t, z2) => t :: PriorityQueue.popAll z2) := by
  cases z <;> simp [PriorityQueue.popAll, PriorityQueue.pop]

/-- C7: the timeout argument has no effect on `PriorityQueue.pop`: for any
sorted-set state and any two timeout values, both calls return the same
result and leave the same state. -/
theorem priority_pop_ignores_timeout (z : Zset) (t1 t2 : Int) :
    PriorityQueue.pop z t1 = PriorityQueue.pop z t2 := by
  cases z <;> rfl

/-- Invariant of a sorted-set state reachable through `PriorityQueue.push`:
entries are in ascending (score, member) order, members are pairwise
distinct, and every score is the negated priority of its member task. -/
def ZInv (z : Zset) : Prop :=
  z.Sorted zle ∧ (z.map Prod.snd).Nodup ∧ ∀ p ∈ z, p.1 = -(p.2.obj.priority)

theorem zinv_nil : ZInv [] := by
  refine ⟨List.sorted_nil, List.nodup_nil, ?_⟩
  intro p hp
  simp at hp

theorem members_zadd_perm (z : Zset) (score : Int) (m : Ser) :
    ((zadd z score m).map Prod.snd).Perm
      (m :: (z.filter (fun p => p.2 ≠ m)).map Prod.snd) :=
  (List.perm_orderedInsert zle (score, m) _).map Prod.snd

theorem not_mem_members_filter (z : Zset) (m : Ser) :
    m ∉ (z.filter (fun p => p.2 ≠ m)).map Prod.snd := by
  intro hmem
  rcases List.mem_map.1 hmem with ⟨p, hp, hps⟩
  rcases List.mem_filter.1 hp with ⟨_, hne⟩
  simp only [decide_eq_true_eq] at hne
  exact hne hps

theorem zinv_zadd {z : Zset} (hz : ZInv z) (score : Int) (m : Ser)
    (hs : score = -(m.obj.priority)) : ZInv (zadd z score m) := by
  obtain ⟨hsort, hnd, hsc⟩ := hz
  refine ⟨?_, ?_, ?_⟩
  · exact List.Sorted.orderedInsert (score, m) _ (hsort.filter _)
  · rw [(members_zadd_perm z score m).nodup_iff]
    refine List.nodup_cons.2 ⟨not_mem_members_filter z m, ?_⟩
    exact hnd.sublist ((List.filter_sublist z).map Prod.snd)
  · intro p hp
    rcases (List.mem_orderedInsert zle).1 hp with h | h
    · rw [h, hs]
    · exact hsc p (List.mem_filter.1 h).1

theorem zinv_push {z : Zset} (hz : ZInv z) (t : Task) :
    ZInv (PriorityQueue.push z t) :=
  zinv_zadd hz _ _ rfl

theorem zinv_pushAll {z : Zset} (hz : ZInv z) (ts : List Task) :
    ZInv (PriorityQueue.pushAll z ts) := by
  induction ts generalizing z with
  | nil => exact hz
  | cons t ts ih => exact ih (zinv_push hz t)

theorem self_mem_members_zadd (z : Zset) (score : Int) (m : Ser) :
    m ∈ (zadd z score m).map Prod.snd :=
  (members_zadd_perm z score m).mem_iff.2 (List.mem_cons_self m _)

theorem mem_members_zadd {z : Zset} {x : Ser} (hx : x ∈ z.map Prod.snd)
    (score : Int) (m : Ser) : x ∈ (zadd z score m).map Prod.snd := by
  by_cases hxm : x = m
  · rw [hxm]; exact self_mem_members_zadd z score m
  · rw [(members_zadd_perm z score m).mem_iff]
    rcases List.mem_map.1 hx with ⟨p, hp, hps⟩
    refine List.mem_cons_of_mem m (List.mem_map.2 ⟨p, List.mem_filter.2 ⟨hp, ?_⟩, hps⟩)
    simpa using hps ▸ hxm

theorem mem_members_pushAll {z : Zset} {x : Ser} (hx : x ∈ z.map Prod.snd)
    (ts : List Task) : x ∈ (PriorityQueue.pushAll z ts).map Prod.snd := by
  induction ts generalizing z with
  | nil => exact hx
  | cons t ts ih => exact ih (mem_members_zadd hx _ _)

theorem pushed_mem_members {z : Zset} {ts : List Task} {t : Task} (ht : t ∈ ts) :
    serialize t ∈ (PriorityQueue.pushAll z ts).map Prod.snd := by
  induction ts generalizing z with
  | nil => simp at ht
  | cons u us ih =>
      rcases List.mem_cons.1 ht with rfl | hmem
      · exact mem_members_pushAll (self_mem_members_zadd _ _ _) us
      · exact ih hmem

theorem zinv_pop_descending {z : Zset} (hz : ZInv z) :
    (PriorityQueue.popAll z).Chain' (fun a b => b.priority ≤ a.priority) := by
  obtain ⟨hsort, _, hsc⟩ := hz
  have hsort' : z.Pairwise zle := hsort
  have hall : ∀ {a b : Zentry}, [a, b].Sublist z → zle a b :=
    List.pairwise_iff_forall_sublist.1 hsort'
  have hpw : z.Pairwise (fun p q => (unserialize q.2).priority ≤ (unserialize p.2).priority) := by
    refine List.pairwise_iff_forall_sublist.2 ?_
    intro p q hsub
    have hp : p ∈ z := hsub.subset (List.mem_cons_self p _)
    have hq : q ∈ z := hsub.subset (List.mem_cons_of_mem p (List.mem_cons_self q _))
    have hle : p.1 ≤ q.1 := zle_scores (hall hsub)
    have hp' := hsc p hp
    have hq' := hsc q hq
    simp only [unserialize]
    omega
  exact (List.pairwise_map.2 hpw).chain'

/-- C2: priority-queue ordering and exactly-once return.
Pushing any sequence of tasks onto a fresh priority queue and popping
repeatedly returns tasks in non-increasing order of their priority
attribute, and every task of the pushed sequence (in particular each of a
pair of distinct tasks pushed with equal priority; pushes are total and
raise nothing) is returned exactly once. -/
theorem priority_order_and_unique (ts : List Task) :
    (PriorityQueue.popAll (PriorityQueue.pushAll [] ts)).Chain'
        (fun a b => b.priority ≤ a.priority) ∧
      ∀ t ∈ ts, (PriorityQueue.popAll (PriorityQueue.pushAll [] ts)).count t = 1 := by
  have hz : ZInv (PriorityQueue.pushAll [] ts) := zinv_pushAll zinv_nil ts
  refine ⟨zinv_pop_descending hz, ?_⟩
  intro t ht
  have hmem : serialize t ∈ (PriorityQueue.pushAll [] ts).map Prod.snd :=
    pushed_mem_members ht
  have hcount :
      (PriorityQueue.popAll (PriorityQueue.pushAll [] ts)).count t =
        ((PriorityQueue.pushAll [] ts).map Prod.snd).count (serialize t) := by
    have : PriorityQueue.popAll (PriorityQueue.pushAll [] ts) =
        ((PriorityQueue.pushAll [] ts).map Prod.snd).map unserialize := by
      simp [PriorityQueue.popAll, List.map_map, Function.comp_def]
    rw [this]
    have ht' : t = unserialize (serialize t) := rfl
    rw [ht', unserialize_serialize]
    exact List.count_map_of_injective _ unserialize unserialize_injective (serialize t)
  rw [hcount]
  exact List.count_eq_one_of_mem hz.2.1 hmem

/-- Witness for `priority_order_and_unique` at the spec example: priorities
[3, 1, 2] plus a second priority-1 task distinct from the first. -/
theorem priority_order_witness :
    (PriorityQueue.popAll (PriorityQueue.pushAll []
        [⟨0, 3, true⟩, ⟨1, 1, true⟩, ⟨2, 2, true⟩, ⟨3, 1, true⟩])).Chain'
        (fun a b => b.priority ≤ a.priority) ∧
      (PriorityQueue.popAll (PriorityQueue.pushAll []
        [⟨0, 3, true⟩, ⟨1, 1, true⟩, ⟨2, 2, true⟩, ⟨3, 1, true⟩])).count ⟨1, 1, true⟩ = 1 :=
  ⟨(priority_order_and_unique _).1,
    (priority_order_and_unique _).2 ⟨1, 1, true⟩ (by decide)⟩

/-- Modelled from the spec: `utils.obj_fingerprint` lives in `utils.py`,
which is not among the sources; the spec describes a fingerprint as a
deterministic, canonical value derived from a task such that duplicate
tasks produce identical fingerprints, treated by the filter as an opaque
key. Modelled as a deterministic function of the task payload identity. -/
def obj_fingerprint (t : Task) : Nat := t.val

/-- `SADD key fp`: adds the member to the set if absent; returns the
number of values added (zero if it already exists) and the new set. -/
def sadd (s : List Nat) (fp : Nat) : Nat × List Nat :=
  if fp ∈ s then (0, s) else (1, fp :: s)

namespace RFPDupeFilter

/-- `RFPDupeFilter.obj_seen`: computes `fp = self.obj_fingerprint(obj)`,
runs `added = self.server.sadd(self.key, fp)` and returns `added == 0`.
The filter state is the redis set of fingerprints; a freshly constructed
filter is bound to a fresh (empty) key. -/
def obj_seen (s : List Nat) (t : Task) : Bool × List Nat :=
  let fp := obj_fingerprint t
  let r := sadd s fp
  (r.1 == 0, r.2)

/-- `RFPDupeFilter.clear`: `self.server.delete(self.key)`. -/
def clear (_ : List Nat) : List Nat := []

end RFPDupeFilter

/-- Applying a sequence of `obj_seen` calls to a filter state, keeping
only the state. -/
def runSeen (ts : List Task) (s : List Nat) : List Nat :=
  ts.foldl (fun st t => (RFPDupeFilter.obj_seen st t).2) s

theorem obj_seen_false_iff (s : List Nat) (t : Task) :
    (RFPDupeFilter.obj_seen s t).1 = false ↔ obj_fingerprint t ∉ s := by
  by_cases h : obj_fingerprint t ∈ s <;>
    simp [RFPDupeFilter.obj_seen, sadd, h]

theorem obj_seen_true_iff (s : List Nat) (t : Task) :
    (RFPDupeFilter.obj_seen s t).1 = true ↔ obj_fingerprint t ∈ s := by
  by_cases h : obj_fingerprint t ∈ s <;>
    simp [RFPDupeFilter.obj_seen, sadd, h]

theorem mem_obj_seen_self (s : List Nat) (t : Task) :
    obj_fingerprint t ∈ (RFPDupeFilter.obj_seen s t).2 := by
  by_cases h : obj_fingerprint t ∈ s <;>
    simp [RFPDupeFilter.obj_seen, sadd, h]

theorem mem_obj_seen_of_mem {s : List Nat} {x : Nat} (hx : x ∈ s) (t : Task) :
    x ∈ (RFPDupeFilter.obj_seen s t).2 := by
  by_cases h : obj_fingerprint t ∈ s <;>
    simp [RFPDupeFilter.obj_seen, sadd, h, hx]

theorem mem_runSeen_of_mem {s : List Nat} {x : Nat} (hx : x ∈ s) (ts : List Task) :
    x ∈ runSeen ts s := by
  induction ts generalizing s with
  | nil => exact hx
  | cons t ts ih => exact ih (mem_obj_seen_of_mem hx t)

/-- C3: dedup filter admission behavior. For every task X: the first
`obj_seen(X)` on a freshly constructed filter (empty set) returns false;
`obj_seen(X)` right after `clear()` returns false; after `obj_seen(X)`,
every later `obj_seen(Y)` with Y fingerprint-equal to X — through any
interleaved sequence of further `obj_seen` calls, provided no clear —
returns true; and every `obj_seen(X)` call leaves X's fingerprint in the
member set. -/
theorem dedup_seen_behavior (s0 : List Nat) (X Y : Task) (ms : List Task) :
    (RFPDupeFilter.obj_seen ([] : List Nat) X).1 = false ∧
      (RFPDupeFilter.obj_seen (RFPDupeFilter.clear s0) X).1 = false ∧
      (obj_fingerprint Y = obj_fingerprint X →
        (RFPDupeFilter.obj_seen
          (runSeen ms (RFPDupeFilter.obj_seen s0 X).2) Y).1 = true) ∧
      obj_fingerprint X ∈ (RFPDupeFilter.obj_seen s0 X).2 := by
  refine ⟨?_, ?_, ?_, mem_obj_seen_self s0 X⟩
  · exact (obj_seen_false_iff [] X).2 (List.not_mem_nil _)
  · exact (obj_seen_false_iff _ X).2 (List.not_mem_nil _)
  · intro hfp
    refine (obj_seen_true_iff _ Y).2 ?_
    rw [hfp]
    exact mem_runSeen_of_mem (mem_obj_seen_self s0 X) ms

/-- Witness for `dedup_seen_behavior`: two fingerprint-equal tasks and a
distractor call in between. -/
theorem dedup_seen_witness :
    (RFPDupeFilter.obj_seen ([] : List Nat) ⟨5, 0, true⟩).1 = false ∧
      (RFPDupeFilter.obj_seen (RFPDupeFilter.clear [5]) ⟨5, 0, true⟩).1 = false ∧
      (RFPDupeFilter.obj_seen
        (runSeen [⟨7, 0, true⟩] (RFPDupeFilter.obj_seen [] ⟨5, 0, true⟩).2)
        ⟨5, 1, false⟩).1 = true ∧
      obj_fingerprint (⟨5, 0, true⟩ : Task) ∈
        (RFPDupeFilter.obj_seen [] ⟨5, 0, true⟩).2 := by
  have h := dedup_seen_behavior [] ⟨5, 0, true⟩ ⟨5, 1, false⟩ [⟨7, 0, true⟩]
  exact ⟨h.1, (dedup_seen_behavior [5] ⟨5, 0, true⟩ ⟨5, 0, true⟩ []).2.1,
    h.2.2.1 (by decide), h.2.2.2⟩

/-- A Python serializer object, abstracted to whether it carries the
`loads` and `dumps` attributes that `Base.__init__` checks with
`hasattr`. -/
structure PySerializer where
  hasLoads : Bool
  hasDumps : Bool
deriving DecidableEq, Repr

/-- The default `picklecompat` serializer module, which provides both
`loads` and `dumps`. -/
def picklecompat : PySerializer := ⟨true, true⟩

/-- `True` exactly on successful (non-raising) construction. -/
def exceptOk {α : Type} (e : Except String α) : Bool :=
  match e with
  | Except.ok _ => true
  | Except.error _ => false

/-- `Base.__init__`: a missing serializer defaults to `picklecompat`;
then a `TypeError` is raised when the serializer lacks `loads`, and a
`TypeError` when it lacks `dumps`. -/
def Base.construct (serializer : Option PySerializer) : Except String PySerializer :=
  let s := serializer.getD picklecompat
  if s.hasLoads = false then
    Except.error "serializer does not implement loads function"
  else if s.hasDumps = false then
    Except.error "serializer does not implement dumps function"
  else Except.ok s

/-- The scheduler-level `if obj: return obj` pattern applied to the value
a queue `pop` returned: the task is forwarded only when its deserialized
value is Python-truthy, otherwise the result is `None`. -/
def ifTruthy : Option Task → Option Task
  | some t => if t.pyTruthy then some t else none
  | none => none

/-- The state of an opened `Scheduler`: its configuration together with
the backing redis list of its (FIFO by default) queue. -/
structure SchedulerState where
  persist : Bool
  idle_before_close : Int
  queue : List Ser
deriving DecidableEq, Repr

namespace Scheduler

/-- `Scheduler.__init__`: raises `TypeError` when `idle_before_close < 0`,
otherwise records the configuration; `open()` then binds the queue to its
redis key, a fresh (hence empty) one under the timestamped default. -/
def construct (persist : Bool) (idle_before_close : Int) :
    Except String SchedulerState :=
  if idle_before_close < 0 then
    Except.error "idle_before_close cannot be negative"
  else
    Except.ok { persist := persist, idle_before_close := idle_before_close, queue := [] }

/-- `Scheduler.flush`: `self.queue.clear()`. -/
def flush (s : SchedulerState) : SchedulerState := { s with queue := [] }

/-- `Scheduler.close`: `if not self.persist: self.flush()`. -/
def close (s : SchedulerState) : SchedulerState :=
  if s.persist then s else flush s

/-- `Scheduler.enqueue`: `self.queue.push(obj); return True`. -/
def enqueue (s : SchedulerState) (t : Task) : Bool × SchedulerState :=
  (true, { s with queue := FifoQueue.push s.queue t })

/-- `Scheduler.dequeue`: pops with `block_pop_timeout =
self.idle_before_close`, then `if obj: return obj`. -/
def dequeue (s : SchedulerState) : Option Task × SchedulerState :=
  let r := FifoQueue.pop s.queue s.idle_before_close
  (ifTruthy r.1, { s with queue := r.2 })

end Scheduler

/-- The state of an opened `PipeScheduler`: its configuration with the
backing redis lists of the inbound and outbound queue. -/
structure PipeSchedulerState where
  persist : Bool
  idle_before_close : Int
  queue_in : List Ser
  queue_out : List Ser
deriving DecidableEq, Repr

namespace PipeScheduler

/-- `PipeScheduler.__init__`: raises `TypeError` when
`idle_before_close < 0`, otherwise records the configuration. -/
def construct (persist : Bool) (idle_before_close : Int) :
    Except String PipeSchedulerState :=
  if idle_before_close < 0 then
    Except.error "idle_before_close cannot be negative"
  else
    Except.ok { persist := persist, idle_before_close := idle_before_close,
                queue_in := [], queue_out := [] }

/-- `PipeScheduler.flush`: clears both queues. -/
def flush (s : PipeSchedulerState) : PipeSchedulerState :=
  { s with queue_in := [], queue_out := [] }

/-- `PipeScheduler.close`: `if not self.persist: self.flush()`. -/
def close (s : PipeSchedulerState) : PipeSchedulerState :=
  if s.persist then s else flush s

/-- `PipeScheduler.enqueue`: pushes to `queue_in` when `queue_name ==
'in'`, to `queue_out` when `'out'`, does nothing for any other name, and
returns `True` in every case. -/
def enqueue (s : PipeSchedulerState) (t : Task) (queue_name : String) :
    Bool × PipeSchedulerState :=
  if queue_name = "in" then
    (true, { s with queue_in := FifoQueue.push s.queue_in t })
  else if queue_name = "out" then
    (true, { s with queue_out := FifoQueue.push s.queue_out t })
  else (true, s)

/-- `PipeScheduler.dequeue`: pops `queue_out` when `queue_name == 'out'`,
`queue_in` when `'in'`, and sets `obj = None` otherwise; then `if obj:
return obj`. -/
def dequeue (s : PipeSchedulerState) (queue_name : String) :
    Option Task × PipeSchedulerState :=
  if queue_name = "out" then
    let r := FifoQueue.pop s.queue_out s.idle_before_close
    (ifTruthy r.1, { s with queue_out := r.2 })
  else if queue_name = "in" then
    let r := FifoQueue.pop s.queue_in s.idle_before_close
    (ifTruthy r.1, { s with queue_in := r.2 })
  else (none, s)

/-- `PipeScheduler.pipe`: `obj = self.dequeue('in'); if obj: return
self.enqueue(obj, 'out'); else: return False`. -/
def pipe (s : PipeSchedulerState) : Bool × PipeSchedulerState :=
  let r := dequeue s "in"
  match r.1 with
  | some t => enqueue r.2 t "out"
  | none => (false, r.2)

end PipeScheduler

/-- The state of an opened `DupeFilterScheduler`: its configuration with
the backing queue list and the redis set of the dedup filter. -/
structure DupeFilterSchedulerState where
  persist : Bool
  idle_before_close : Int
  queue : List Ser
  df : List Nat
deriving DecidableEq, Repr

namespace DupeFilterScheduler

/-- `DupeFilterScheduler.__init__` delegates to `Scheduler.__init__`,
which raises `TypeError` when `idle_before_close < 0`. -/
def construct (persist : Bool) (idle_before_close : Int) :
    Except String DupeFilterSchedulerState :=
  if idle_before_close < 0 then
    Except.error "idle_before_close cannot be negative"
  else
    Except.ok { persist := persist, idle_before_close := idle_before_close,
                queue := [], df := [] }

/-- `DupeFilterScheduler.flush`: `self.df.clear(); self.queue.clear()`. -/
def flush (s : DupeFilterSchedulerState) : DupeFilterSchedulerState :=
  { s with df := [], queue := [] }

/-- `close` is inherited from `Scheduler`: `if not self.persist:
self.flush()`, where `self.flush` dispatches to
`DupeFilterScheduler.flush` and clears the dedup set and the queue. -/
def close (s : DupeFilterSchedulerState) : DupeFilterSchedulerState :=
  if s.persist then s else flush s

/-- `DupeFilterScheduler.enqueue`: `if self.df.obj_seen(obj):
self.df.log(obj); return False; else: self.queue.push(obj); return
True`. (`log` only touches the logging latch, not the redis state.) -/
def enqueue (s : DupeFilterSchedulerState) (t : Task) :
    Bool × DupeFilterSchedulerState :=
  let r := RFPDupeFilter.obj_seen s.df t
  if r.1 then (false, { s with df := r.2 })
  else (true, { s with df := r.2, queue := FifoQueue.push s.queue t })

/-- `DupeFilterScheduler.dequeue`: identical to `Scheduler.dequeue`. -/
def dequeue (s : DupeFilterSchedulerState) :
    Option Task × DupeFilterSchedulerState :=
  let r := FifoQueue.pop s.queue s.idle_before_close
  (ifTruthy r.1, { s with queue := r.2 })

end DupeFilterScheduler

/-- C4: dedup-scheduler admission. If the dedup filter already holds X's
fingerprint, `enqueue(X)` returns failure and leaves the queue unchanged;
otherwise it pushes X and returns success; and from a state with X not
yet seen and an empty queue, enqueueing X twice returns success then
failure and leaves the queue at length 1. -/
theorem dupe_enqueue_behavior (s : DupeFilterSchedulerState) (X : Task) :
    (obj_fingerprint X ∈ s.df →
      (DupeFilterScheduler.enqueue s X).1 = false ∧
        ((DupeFilterScheduler.enqueue s X).2).queue = s.queue) ∧
      (obj_fingerprint X ∉ s.df →
        (DupeFilterScheduler.enqueue s X).1 = true ∧
          ((DupeFilterScheduler.enqueue s X).2).queue = FifoQueue.push s.queue X) ∧
      (obj_fingerprint X ∉ s.df → s.queue = [] →
        (DupeFilterScheduler.enqueue s X).1 = true ∧
          (DupeFilterScheduler.enqueue ((DupeFilterScheduler.enqueue s X).2) X).1 = false ∧
          ((DupeFilterScheduler.enqueue
            ((DupeFilterScheduler.enqueue s X).2) X).2).queue.length = 1) := by
  refine ⟨?_, ?_, ?_⟩
  · intro hmem
    simp [DupeFilterScheduler.enqueue, (obj_seen_true_iff s.df X).2 hmem]
  · intro hmem
    simp [DupeFilterScheduler.enqueue, (obj_seen_false_iff s.df X).2 hmem]
  · intro hmem hq
    have h1 : (RFPDupeFilter.obj_seen s.df X).1 = false :=
      (obj_seen_false_iff s.df X).2 hmem
    have h2 : (RFPDupeFilter.obj_seen (RFPDupeFilter.obj_seen s.df X).2 X).1 = true :=
      (obj_seen_true_iff _ X).2 (mem_obj_seen_self s.df X)
    simp [DupeFilterScheduler.enqueue, h1, h2, hq, FifoQueue.push]

/-- Witness for `dupe_enqueue_behavior`: a fresh dedup scheduler and one
task. -/
theorem dupe_enqueue_witness :
    ((DupeFilterScheduler.enqueue ⟨false, 0, [], []⟩ ⟨1, 0, true⟩).1 = true ∧
        ((DupeFilterScheduler.enqueue ⟨false, 0, [], []⟩ ⟨1, 0, true⟩).2).queue =
          FifoQueue.push [] ⟨1, 0, true⟩) ∧
      ((DupeFilterScheduler.enqueue ⟨false, 0, [], []⟩ ⟨1, 0, true⟩).1 = true ∧
        (DupeFilterScheduler.enqueue
          ((DupeFilterScheduler.enqueue ⟨false, 0, [], []⟩ ⟨1, 0, true⟩).2) ⟨1, 0, true⟩).1 = false ∧
        ((DupeFilterScheduler.enqueue
          ((DupeFilterScheduler.enqueue ⟨false, 0, [], []⟩ ⟨1, 0, true⟩).2)
            ⟨1, 0, true⟩).2).queue.length = 1) :=
  ⟨(dupe_enqueue_behavior ⟨false, 0, [], []⟩ ⟨1, 0, true⟩).2.1 (by decide),
    (dupe_enqueue_behavior ⟨false, 0, [], []⟩ ⟨1, 0, true⟩).2.2 (by decide) rfl⟩

/-- A task whose deserialized value is Python-falsy. -/
def falsyTask : Task := ⟨0, 0, false⟩

/-- A pipe scheduler state whose inbound queue holds exactly one task,
whose deserialized value is falsy, and whose outbound queue is empty. -/
def pipeFalsyState : PipeSchedulerState :=
  { persist := false, idle_before_close := 0,
    queue_in := [serialize falsyTask], queue_out := [] }

/-- C5 counterexample: the inbound queue is non-empty, yet `pipe()`
returns failure and appends nothing to the outbound queue (the claim, as
stated, predicts success with the item moved to the outbound queue); the
item is nevertheless removed from the inbound queue. -/
theorem pipe_nonempty_failure_counterexample :
    pipeFalsyState.queue_in ≠ [] ∧
      PipeScheduler.pipe pipeFalsyState = (false, { pipeFalsyState with queue_in := [] }) := by
  constructor
  · simp [pipeFalsyState]
  · rfl

/-- C5 amended: if the inbound queue is non-empty and the item at its pop
end deserializes to a Python-truthy value, `pipe()` removes that item,
appends it to the outbound queue and returns success; if the inbound
queue is empty, `pipe()` returns failure and leaves both queues
unchanged. -/
theorem pipe_behavior_amended (s : PipeSchedulerState) (q : List Ser) (t : Task) :
    (s.queue_in = q ++ [serialize t] → t.truthy = true →
      PipeScheduler.pipe s =
        (true, { s with queue_in := q, queue_out := FifoQueue.push s.queue_out t })) ∧
      (s.queue_in = [] → PipeScheduler.pipe s = (false, s)) := by
  constructor
  · intro hq ht
    simp [PipeScheduler.pipe, PipeScheduler.dequeue, PipeScheduler.enqueue, hq,
      FifoQueue.pop_concat, ifTruthy, Task.pyTruthy, unserialize_serialize, ht]
  · intro hq
    cases s
    simp only at hq
    simp [PipeScheduler.pipe, PipeScheduler.dequeue, hq, FifoQueue.pop_nil, ifTruthy]

/-- Witness for `pipe_behavior_amended`: one truthy task in the inbound
queue, then the emptied state. -/
theorem pipe_behavior_witness :
    PipeScheduler.pipe ⟨false, 0, [serialize ⟨1, 0, true⟩], []⟩ =
        (true, ⟨false, 0, [], FifoQueue.push [] ⟨1, 0, true⟩⟩) ∧
      PipeScheduler.pipe ⟨false, 0, [], [serialize ⟨1, 0, true⟩]⟩ =
        (false, ⟨false, 0, [], [serialize ⟨1, 0, true⟩]⟩) :=
  ⟨(pipe_behavior_amended ⟨false, 0, [serialize ⟨1, 0, true⟩], []⟩ [] ⟨1, 0, true⟩).1
      (by simp) rfl,
    (pipe_behavior_amended ⟨false, 0, [], [serialize ⟨1, 0, true⟩]⟩ [] ⟨1, 0, true⟩).2 rfl⟩

/-- C6: close respects persist. With `persist` unset, `Scheduler.close`
clears the backing queue and `DupeFilterScheduler.close` clears both the
dedup set and the queue; with `persist` set, both leave their backing
collections entirely unchanged. -/
theorem close_persist_behavior (s : SchedulerState) (d : DupeFilterSchedulerState) :
    (s.persist = false → (Scheduler.close s).queue = []) ∧
      (s.persist = true → Scheduler.close s = s) ∧
      (d.persist = false →
        (DupeFilterScheduler.close d).queue = [] ∧ (DupeFilterScheduler.close d).df = []) ∧
      (d.persist = true → DupeFilterScheduler.close d = d) := by
  refine ⟨?_, ?_, ?_, ?_⟩ <;> intro h <;>
    simp [Scheduler.close, Scheduler.flush, DupeFilterScheduler.close,
      DupeFilterScheduler.flush, h]

/-- Witness for `close_persist_behavior` at concrete states. -/
theorem close_persist_witness :
    (Scheduler.close ⟨false, 0, [serialize ⟨1, 0, true⟩]⟩).queue = [] ∧
      DupeFilterScheduler.close ⟨true, 0, [serialize ⟨1, 0, true⟩], [1]⟩ =
        ⟨true, 0, [serialize ⟨1, 0, true⟩], [1]⟩ :=
  ⟨(close_persist_behavior ⟨false, 0, [serialize ⟨1, 0, true⟩]⟩
      ⟨true, 0, [serialize ⟨1, 0, true⟩], [1]⟩).1 rfl,
    (close_persist_behavior ⟨false, 0, []⟩
      ⟨true, 0, [serialize ⟨1, 0, true⟩], [1]⟩).2.2.2 rfl⟩

/-- C8: construction-time validation. Each scheduler constructor raises
for a negative `idle_before_close` and succeeds for a non-negative one;
queue construction raises when the serializer lacks `loads` or `dumps`,
succeeds when it has both, and succeeds with the default (pickle)
serializer. -/
theorem construction_validation (i : Int) (p : Bool) (ser : PySerializer) :
    (i < 0 →
      exceptOk (Scheduler.construct p i) = false ∧
        exceptOk (PipeScheduler.construct p i) = false ∧
        exceptOk (DupeFilterScheduler.construct p i) = false) ∧
      (0 ≤ i →
        exceptOk (Scheduler.construct p i) = true ∧
          exceptOk (PipeScheduler.construct p i) = true ∧
          exceptOk (DupeFilterScheduler.construct p i) = true) ∧
      (ser.hasLoads = false ∨ ser.hasDumps = false →
        exceptOk (Base.construct (some ser)) = false) ∧
      (ser.hasLoads = true → ser.hasDumps = true →
        exceptOk (Base.construct (some ser)) = true) ∧
      exceptOk (Base.construct none) = true := by
  refine ⟨?_, ?_, ?_, ?_, ?_⟩
  · intro h
    simp [Scheduler.construct, PipeScheduler.construct, DupeFilterScheduler.construct,
      h, exceptOk]
  · intro h
    simp [Scheduler.construct, PipeScheduler.construct, DupeFilterScheduler.construct,
      not_lt.2 h, exceptOk]
  · rintro (h | h)
    · simp [Base.construct, h, exceptOk]
    · cases hL : ser.hasLoads <;> simp [Base.construct, h, hL, exceptOk]
  · intro h1 h2
    simp [Base.construct, h1, h2, exceptOk]
  · rfl

/-- Witness for `construction_validation` at concrete inputs. -/
theorem construction_validation_witness :
    exceptOk (Redisqueue.Scheduler.construct true (-1)) = false ∧
      exceptOk (Redisqueue.Scheduler.construct true 0) = true ∧
      exceptOk (Redisqueue.Base.construct (some ⟨true, false⟩)) = false :=
  ⟨((construction_validation (-1) true ⟨true, false⟩).1 (by decide)).1,
    ((construction_validation 0 true ⟨true, false⟩).2.1 (by decide)).1,
    (construction_validation 0 true ⟨true, false⟩).2.2.1 (Or.inr rfl)⟩

/-- C9: routing to an unknown queue name. For any name other than `'in'`
and `'out'`, `PipeScheduler.enqueue` still returns `True` but modifies
neither queue (the task is silently discarded), and
`PipeScheduler.dequeue` returns `None` without touching either queue. -/
theorem pipe_unknown_queue_name (s : PipeSchedulerState) (t : Task) (name : String) :
    name ≠ "in" → name ≠ "out" →
      PipeScheduler.enqueue s t name = (true, s) ∧
        PipeScheduler.dequeue s name = (none, s) := by
  intro hin hout
  constructor
  · simp [PipeScheduler.enqueue, hin, hout]
  · simp [PipeScheduler.dequeue, hin, hout]

/-- Witness for `pipe_unknown_queue_name` with the name `'middle'`. -/
theorem pipe_unknown_queue_name_witness :
    PipeScheduler.enqueue ⟨false, 0, [], []⟩ ⟨1, 0, true⟩ "middle" =
        (true, ⟨false, 0, [], []⟩) ∧
      PipeScheduler.dequeue ⟨false, 0, [], []⟩ "middle" = (none, ⟨false, 0, [], []⟩) :=
  pipe_unknown_queue_name ⟨false, 0, [], []⟩ ⟨1, 0, true⟩ "middle"
    (by decide) (by decide)

/-- C10: falsy tasks are removed but reported absent. If the task at the
pop end of the backing queue deserializes to a Python-falsy value,
`Scheduler.dequeue` (likewise `PipeScheduler.dequeue` on `'in'` and
`PipeScheduler.pipe`) removes it from the queue yet returns `None` — the
same answer an empty queue produces, so the caller cannot tell the two
apart, and `pipe` forwards nothing to the outbound queue. -/
theorem falsy_task_lost (s : SchedulerState) (p : PipeSchedulerState)
    (q : List Ser) (t : Task) (ht : t.truthy = false) :
    (s.queue = q ++ [serialize t] →
      Scheduler.dequeue s = (none, { s with queue := q })) ∧
      (p.queue_in = q ++ [serialize t] →
        PipeScheduler.dequeue p "in" = (none, { p with queue_in := q }) ∧
          PipeScheduler.pipe p = (false, { p with queue_in := q })) ∧
      (s.queue = [] → Scheduler.dequeue s = (none, s)) := by
  refine ⟨?_, ?_, ?_⟩
  · intro hq
    simp [Scheduler.dequeue, hq, FifoQueue.pop_concat, ifTruthy, Task.pyTruthy,
      unserialize_serialize, ht]
  · intro hq
    have hd : PipeScheduler.dequeue p "in" = (none, { p with queue_in := q }) := by
      simp [PipeScheduler.dequeue, hq, FifoQueue.pop_concat, ifTruthy, Task.pyTruthy,
        unserialize_serialize, ht]
    exact ⟨hd, by simp [PipeScheduler.pipe, hd]⟩
  · intro hq
    cases s
    simp only at hq
    simp [Scheduler.dequeue, hq, FifoQueue.pop_nil, ifTruthy]

/-- Witness for `falsy_task_lost` with a falsy task as the only queue
element. -/
theorem falsy_task_lost_witness :
    Scheduler.dequeue ⟨false, 0, [serialize falsyTask]⟩ = (none, ⟨false, 0, []⟩) ∧
      PipeScheduler.pipe pipeFalsyState = (false, { pipeFalsyState with queue_in := [] }) ∧
      Scheduler.dequeue ⟨false, 0, []⟩ = (none, ⟨false, 0, []⟩) :=
  ⟨(falsy_task_lost ⟨false, 0, [serialize falsyTask]⟩ pipeFalsyState [] falsyTask rfl).1
      (by simp),
    ((falsy_task_lost ⟨false, 0, [serialize falsyTask]⟩ pipeFalsyState [] falsyTask rfl).2.1
      (by simp [pipeFalsyState])).2,
    (falsy_task_lost ⟨false, 0, []⟩ pipeFalsyState [] falsyTask rfl).2.2 rfl⟩

end Redisqueue
